import Mathlib

/-!
# Gateways reconciler (`pkg/resources/gateways/gateways.go`)

A shallow embedding of the gateways component of the operator and a
verification of the reconciliation engine's contract.

* Go strings are `String`, `map[string]string` literals are association lists.
* `error` values are a tree of wrapped errors (`Error`); `nil` is `none`.
* The cluster behind `r.Client` and `r.dynamic` is an explicit store `σ`
  threaded through the run; the two convergence primitives are the fields of
  `Cluster`.
* A run returns, next to the error, the store it leaves behind and the
  ordered list of the calls it made (`Event`), so that "is never invoked"
  becomes a statement about that list.
-/

set_option autoImplicit false

namespace Gateways

/-! ## Data model -/

/-- Group, version and kind of a typed object (`schema.GroupVersionKind`). -/
structure GroupVersionKind where
  Group : String
  Version : String
  Kind : String
deriving DecidableEq, Repr

/-- Group, version and resource of a dynamic object (`schema.GroupVersionResource`). -/
structure GroupVersionResource where
  Group : String
  Version : String
  Resource : String
deriving DecidableEq, Repr

/-- A typed resource object (`runtime.Object`, an interface of an external library): what
`o.GetObjectKind().GroupVersionKind()` returns, the name and label set that every
resource carries, and the rest of its desired specification as uninterpreted text. -/
structure Object where
  gvk : GroupVersionKind
  name : String
  labels : List (String × String)
  spec : String
deriving DecidableEq, Repr

/-- Modelled from the spec: `k8sutil.DynamicObject` is declared outside this file; a handle
of a dynamically-typed resource is kept as the `Gvr` descriptor the source reads, its name
and label set, and the schema-less rest as uninterpreted text. -/
structure DynamicObject where
  Name : String
  Labels : List (String × String)
  Gvr : GroupVersionResource
  Spec : String
deriving DecidableEq, Repr

/-- A value passed as context to `emperror.WrapWith` by this file. -/
inductive ContextValue where
  | gvk (k : GroupVersionKind)
  | gvr (r : GroupVersionResource)
deriving DecidableEq, Repr

/-- Go `error` values: an error raised by a collaborator, or an error annotated by
`emperror.WrapWith(err, msg, keyvals...)` with a message and key/value context. -/
inductive Error where
  | base (msg : String)
  | wrapWith (cause : Error) (msg : String) (keyvals : List (String × ContextValue))
deriving DecidableEq, Repr

/-- Modelled from the spec: `istiov1beta1.GatewayConfiguration` is declared outside this
file; the per-variant configuration record (enable flags, spec overrides) is kept as an
uninterpreted list of settings. -/
structure GatewayConfiguration where
  settings : List (String × String)
deriving DecidableEq, Repr

/-- The `Spec.DefaultPodDisruptionBudget` record: the one field the source reads. -/
structure PDBConfiguration where
  Enabled : Bool
deriving DecidableEq, Repr

/-- The `Spec.Gateways.K8sIngress` record: the one field the source reads. -/
structure K8sIngressConfiguration where
  Enabled : Bool
deriving DecidableEq, Repr

/-- The `Spec.Gateways` record: the fields the source reads. -/
structure GatewaysConfiguration where
  IngressConfig : GatewayConfiguration
  EgressConfig : GatewayConfiguration
  K8sIngress : K8sIngressConfiguration
deriving DecidableEq, Repr

/-- The `Spec` of the `istiov1beta1.Istio` configuration: the fields the source reads. -/
structure IstioSpec where
  DefaultPodDisruptionBudget : PDBConfiguration
  Gateways : GatewaysConfiguration
deriving DecidableEq, Repr

/-- The `istiov1beta1.Istio` configuration object. -/
structure Istio where
  Spec : IstioSpec
deriving DecidableEq, Repr

/-- The receiver of the methods: `Reconciler` holds the configuration; its `Client` and
`dynamic` handles are the store and the `Cluster` primitives of a run. -/
structure Reconciler where
  Config : Istio
deriving DecidableEq, Repr

/-! ## Constants and naming helpers -/

def componentName : String := "gateways"

def ingress : String := "ingressgateway"

def egress : String := "egressgateway"

def defaultGatewayName : String := "istio-autogenerated-k8s-ingress"

/-- `fmt.Sprintf("istio-%s-service-account", gw)`. -/
def serviceAccountName (gw : String) : String :=
  "istio-" ++ gw ++ "-service-account"

/-- `fmt.Sprintf("istio-%s-cluster-role", gw)`. -/
def clusterRoleName (gw : String) : String :=
  "istio-" ++ gw ++ "-cluster-role"

/-- `fmt.Sprintf("istio-%s-cluster-role-binding", gw)`. -/
def clusterRoleBindingName (gw : String) : String :=
  "istio-" ++ gw ++ "-cluster-role-binding"

/-- `fmt.Sprintf("istio-%s", gw)`. -/
def gatewayName (gw : String) : String :=
  "istio-" ++ gw

/-- `fmt.Sprintf("istio-%s-autoscaler", gw)`. -/
def hpaName (gw : String) : String :=
  "istio-" ++ gw ++ "-autoscaler"

/-- `fmt.Sprintf("istio-%s", gw)`. -/
def pdbName (gw : String) : String :=
  "istio-" ++ gw

/-- The one-entry label map `{"app": "istio-<gw>"}`. -/
def gwLabels (gw : String) : List (String × String) :=
  [("app", "istio-" ++ gw)]

/-- `getGatewayConfig`: the `switch` on the variant name. The receiver is returned next to
the result (`none` is the `nil` pointer): the method has no assignment, so the receiver
comes back as it went in. -/
def getGatewayConfig (r : Reconciler) (gw : String) :
    Option GatewayConfiguration × Reconciler :=
  if gw = ingress then
    (some r.Config.Spec.Gateways.IngressConfig, r)
  else if gw = egress then
    (some r.Config.Spec.Gateways.EgressConfig, r)
  else
    (none, r)

/-! ## The reconciliation run -/

/-- A resource builder bound to a variant: `resources.ResourceVariation`. -/
abbrev ResourceVariation := String → Object

/-- A zero-argument closure producing one resource: `resources.Resource`. -/
abbrev Resource := Unit → Object

/-- The methods of `*Reconciler` that `Reconcile` refers to and whose bodies live in
sibling files of the package: the seven resource builders and the constructor of the
gateway dynamic resource. Each is a function of its receiver (and of the variant). -/
structure Methods where
  serviceAccount : Reconciler → String → Object
  clusterRole : Reconciler → String → Object
  clusterRoleBinding : Reconciler → String → Object
  deployment : Reconciler → String → Object
  service : Reconciler → String → Object
  horizontalPodAutoscaler : Reconciler → String → Object
  podDisruptionBudget : Reconciler → String → Object
  gateway : Reconciler → Unit → DynamicObject

/-- The two external convergence primitives over a store `σ`:
`k8sutil.Reconcile(log, r.Client, o)` and `o.Reconcile(log, r.dynamic, desiredState)`.
Each returns the store it leaves behind (a failing call may have changed it) and its
`error` result. The type `δ` is the type of the `DesiredState` field, declared outside
this file; `default : δ` stands for its Go zero value. -/
structure Cluster (σ δ : Type) where
  reconcile : σ → Object → σ × Option Error
  reconcileDynamic : σ → DynamicObject → δ → σ × Option Error

/-- `resources.DynamicResourceWithDesiredState`: a constructor of a dynamic resource
handle paired with a desired state. -/
structure DynamicResourceWithDesiredState (δ : Type) where
  DynamicResource : Unit → DynamicObject
  DesiredState : δ

/-- The calls a run makes, in the order it makes them. -/
inductive Event (δ : Type) where
  /-- The call `log.Info(msg)` on the logger carrying `"component"`. -/
  | info (component msg : String)
  /-- The call `res()` of a closure of the typed list, with the object it built. -/
  | build (o : Object)
  /-- The call `k8sutil.Reconcile(log, r.Client, o)`, with the error it returned. -/
  | converge (o : Object) (err : Option Error)
  /-- The call `dr.DynamicResource()`, with the handle it built. -/
  | buildDynamic (d : DynamicObject)
  /-- The call `o.Reconcile(log, r.dynamic, dr.DesiredState)`, with the error it returned. -/
  | convergeDynamic (d : DynamicObject) (desired : δ) (err : Option Error)
deriving DecidableEq, Repr

/-- What a run (or a pass of it) leaves behind: the store, the calls made, and the
returned `error`. -/
structure Outcome (σ δ : Type) where
  store : σ
  trace : List (Event δ)
  err : Option Error

/-- Modelled from the spec: `resources.ResolveVariations` is declared in `pkg/resources`,
outside this file. Per the Variant Expander contract it returns one closure per builder,
in builder-list order, each preloaded with the variant's name; expansion itself has no
side effect. -/
def ResolveVariations (t : String) (v : List ResourceVariation) : List Resource :=
  v.map (fun b => fun _ => b t)

/-- The builder list `rsv` of `Reconcile`: six builders, and `podDisruptionBudget`
appended when `Spec.DefaultPodDisruptionBudget.Enabled`. -/
def rsv (m : Methods) (r : Reconciler) : List ResourceVariation :=
  let rsv : List ResourceVariation :=
    [m.serviceAccount r, m.clusterRole r, m.clusterRoleBinding r, m.deployment r,
      m.service r, m.horizontalPodAutoscaler r]
  if r.Config.Spec.DefaultPodDisruptionBudget.Enabled then
    rsv ++ [m.podDisruptionBudget r]
  else
    rsv

/-- The list the first loop of `Reconcile` ranges over:
`append(ResolveVariations(ingress, rsv), ResolveVariations(egress, rsv)...)`. -/
def typedResources (m : Methods) (r : Reconciler) : List Resource :=
  ResolveVariations ingress (rsv m r) ++ ResolveVariations egress (rsv m r)

/-- The list `drs` of `Reconcile`: empty, and the gateway resource appended when
`Spec.Gateways.K8sIngress.Enabled`. The composite literal names the `DynamicResource`
field only, so `DesiredState` holds the zero value of its type (`default`). -/
def drs {δ : Type} [Inhabited δ] (m : Methods) (r : Reconciler) :
    List (DynamicResourceWithDesiredState δ) :=
  let drs : List (DynamicResourceWithDesiredState δ) := []
  if r.Config.Spec.Gateways.K8sIngress.Enabled then
    drs ++ [{ DynamicResource := m.gateway r, DesiredState := default }]
  else
    drs

/-- The first loop of `Reconcile`: call the closure, converge the object, return the
wrapped error at the first failure. -/
def typedPass {σ δ : Type} (cl : Cluster σ δ) : List Resource → σ → Outcome σ δ
  | [], s => { store := s, trace := [], err := none }
  | res :: rest, s =>
    let o := res ()
    match cl.reconcile s o with
    | (s', some err) =>
      { store := s'
        trace := [Event.build o, Event.converge o (some err)]
        err := some (Error.wrapWith err "failed to reconcile resource"
          [("resource", ContextValue.gvk o.gvk)]) }
    | (s', none) =>
      let out := typedPass cl rest s'
      { out with trace := Event.build o :: Event.converge o none :: out.trace }

/-- The second loop of `Reconcile`: build the handle, converge it with the item's desired
state, return the wrapped error at the first failure. -/
def dynamicPass {σ δ : Type} (cl : Cluster σ δ) :
    List (DynamicResourceWithDesiredState δ) → σ → Outcome σ δ
  | [], s => { store := s, trace := [], err := none }
  | dr :: rest, s =>
    let o := dr.DynamicResource ()
    match cl.reconcileDynamic s o dr.DesiredState with
    | (s', some err) =>
      { store := s'
        trace := [Event.buildDynamic o, Event.convergeDynamic o dr.DesiredState (some err)]
        err := some (Error.wrapWith err "failed to reconcile dynamic resource"
          [("resource", ContextValue.gvr o.Gvr)]) }
    | (s', none) =>
      let out := dynamicPass cl rest s'
      { out with
        trace := Event.buildDynamic o :: Event.convergeDynamic o dr.DesiredState none
          :: out.trace }

/-- `Reconciler.Reconcile`: log, run the typed loop, then the dynamic loop, log, return
`nil`; a failure of either loop returns from the function there. -/
def Reconcile {σ δ : Type} [Inhabited δ] (m : Methods) (cl : Cluster σ δ) (r : Reconciler)
    (s : σ) : Outcome σ δ :=
  let t0 : List (Event δ) := [Event.info componentName "Reconciling"]
  let typed := typedPass cl (typedResources m r) s
  match typed.err with
  | some err => { store := typed.store, trace := t0 ++ typed.trace, err := some err }
  | none =>
    let dyn := dynamicPass cl (drs m r) typed.store
    match dyn.err with
    | some err =>
      { store := dyn.store, trace := t0 ++ typed.trace ++ dyn.trace, err := some err }
    | none =>
      { store := dyn.store
        trace := t0 ++ typed.trace ++ dyn.trace ++ [Event.info componentName "Reconciled"]
        err := none }

/-! ## Vocabulary of the contract -/

/-- One unit of work of a run: a typed object, or a dynamic handle with the desired state
it is converged with. -/
inductive Item (δ : Type) where
  | typed (o : Object)
  | dynamic (d : DynamicObject) (desired : δ)
deriving DecidableEq, Repr

/-- The convergence primitive that a run applies to an item. -/
def Cluster.apply {σ δ : Type} (cl : Cluster σ δ) (s : σ) : Item δ → σ × Option Error
  | Item.typed o => cl.reconcile s o
  | Item.dynamic d desired => cl.reconcileDynamic s d desired

/-- The objects the closures of the typed list build, in list order. -/
def typedObjects (m : Methods) (r : Reconciler) : List Object :=
  (typedResources m r).map (fun res => res ())

/-- The work list of a run: the typed objects, then the dynamic resources. -/
def items {δ : Type} [Inhabited δ] (m : Methods) (r : Reconciler) : List (Item δ) :=
  (typedObjects m r).map Item.typed ++
    (drs m r).map (fun dr => Item.dynamic (dr.DynamicResource ()) dr.DesiredState)

/-- The store after the primitive has been applied to each item of a list in turn. -/
def storeAfter {σ δ : Type} (cl : Cluster σ δ) (s : σ) (l : List (Item δ)) : σ :=
  l.foldl (fun s it => (cl.apply s it).1) s

/-- The primitive succeeds on every item of the list when they are converged in order
from store `s`. -/
def AllSucceed {σ δ : Type} (cl : Cluster σ δ) : σ → List (Item δ) → Prop
  | _, [] => True
  | s, it :: rest => (cl.apply s it).2 = none ∧ AllSucceed cl (cl.apply s it).1 rest

/-- The two calls a run makes for an item, with the result of the convergence call. -/
def Item.events {δ : Type} : Item δ → Option Error → List (Event δ)
  | Item.typed o, err => [Event.build o, Event.converge o err]
  | Item.dynamic d desired, err =>
    [Event.buildDynamic d, Event.convergeDynamic d desired err]

/-- The error a run returns when the primitive fails with `e` on an item. -/
def Item.wrap {δ : Type} : Item δ → Error → Error
  | Item.typed o, e =>
    Error.wrapWith e "failed to reconcile resource" [("resource", ContextValue.gvk o.gvk)]
  | Item.dynamic d _, e =>
    Error.wrapWith e "failed to reconcile dynamic resource"
      [("resource", ContextValue.gvr d.Gvr)]

/-- A single fail-fast routine over a work list: converge each item in order and stop at
the first failure (the one routine both loops of `Reconcile` are instances of). -/
def reconcileAll {σ δ : Type} (cl : Cluster σ δ) : List (Item δ) → σ → Outcome σ δ
  | [], s => { store := s, trace := [], err := none }
  | it :: rest, s =>
    match cl.apply s it with
    | (s', some e) => { store := s', trace := it.events (some e), err := some (it.wrap e) }
    | (s', none) =>
      let out := reconcileAll cl rest s'
      { out with trace := it.events none ++ out.trace }

/-- Whether a call belongs to the typed pass. -/
def Event.isTyped {δ : Type} : Event δ → Bool
  | Event.build _ => true
  | Event.converge _ _ => true
  | _ => false

/-- Whether a call belongs to the dynamic pass. -/
def Event.isDynamic {δ : Type} : Event δ → Bool
  | Event.buildDynamic _ => true
  | Event.convergeDynamic _ _ _ => true
  | _ => false

/-- Whether a call is a log line. -/
def Event.isInfo {δ : Type} : Event δ → Bool
  | Event.info _ _ => true
  | _ => false

/-- The convergence call an event stands for: the item converged and the error returned. -/
def Event.call? {δ : Type} : Event δ → Option (Item δ × Option Error)
  | Event.converge o err => some (Item.typed o, err)
  | Event.convergeDynamic d desired err => some (Item.dynamic d desired, err)
  | _ => none

/-- The convergence calls of a trace, in order. -/
def calls {δ : Type} (t : List (Event δ)) : List (Item δ × Option Error) :=
  t.filterMap Event.call?

/-- The objects built by the typed closures a trace invokes, in order. -/
def builtObjects {δ : Type} (t : List (Event δ)) : List Object :=
  t.filterMap (fun e => match e with
    | Event.build o => some o
    | _ => none)

/-- The objects a trace passes to the typed convergence primitive, in order. -/
def convergedObjects {δ : Type} (t : List (Event δ)) : List Object :=
  t.filterMap (fun e => match e with
    | Event.converge o _ => some o
    | _ => none)

/-- The handles a trace passes to the dynamic convergence primitive, in order. -/
def convergedHandles {δ : Type} (t : List (Event δ)) : List DynamicObject :=
  t.filterMap (fun e => match e with
    | Event.convergeDynamic d _ _ => some d
    | _ => none)

/-- The dynamic handle an item stands for, if it is one. -/
def Item.handle? {δ : Type} : Item δ → Option DynamicObject
  | Item.typed _ => none
  | Item.dynamic d _ => some d

/-- The handles the constructors of the dynamic list build, in list order. -/
def dynamicObjects (m : Methods) (r : Reconciler) : List DynamicObject :=
  (drs m r : List (DynamicResourceWithDesiredState Unit)).map (fun dr => dr.DynamicResource ())

/-- The typed object an item stands for, if it is one. -/
def Item.object? {δ : Type} : Item δ → Option Object
  | Item.typed o => some o
  | Item.dynamic _ _ => none

/-- The name of the resource an item stands for. -/
def Item.name {δ : Type} : Item δ → String
  | Item.typed o => o.name
  | Item.dynamic d _ => d.Name

/-- The name and label set of a typed object. -/
def Object.identity (o : Object) : String × List (String × String) :=
  (o.name, o.labels)

/-- The name and label set of a dynamic handle. -/
def DynamicObject.identity (d : DynamicObject) : String × List (String × String) :=
  (d.Name, d.Labels)

/-- The receiver with `Spec.DefaultPodDisruptionBudget.Enabled` set to `b`. -/
def withPodDisruptionBudget (b : Bool) (r : Reconciler) : Reconciler :=
  { r with Config.Spec.DefaultPodDisruptionBudget.Enabled := b }

/-- The receiver with `Spec.Gateways.K8sIngress.Enabled` set to `b`. -/
def withK8sIngress (b : Bool) (r : Reconciler) : Reconciler :=
  { r with Config.Spec.Gateways.K8sIngress.Enabled := b }

/-! ## Builders as the specification describes them -/

/-- Modelled from the spec: the bodies of the resource builders (`r.serviceAccount`,
`r.clusterRole`, `r.clusterRoleBinding`, `r.deployment`, `r.service`,
`r.horizontalPodAutoscaler`, `r.podDisruptionBudget`) are in sibling files of the
package, not in this one. Per the data model a builder is a pure function of the variant,
closed over the reconciler's configuration, there is one builder per resource kind, and
every resource it constructs carries a name and a label set derived from its variant. A
builder is kept as its kind, its name and label set as functions of the variant, and the
rest of the desired specification as a function of receiver and variant. -/
structure VariantBuilder where
  gvk : GroupVersionKind
  name : String → String
  labels : String → List (String × String)
  spec : Reconciler → String → String

/-- The method a builder stands for: the object it constructs for a receiver and a
variant. -/
def VariantBuilder.build (b : VariantBuilder) (r : Reconciler) (gw : String) : Object :=
  { gvk := b.gvk, name := b.name gw, labels := b.labels gw, spec := b.spec r gw }

/-- Modelled from the spec: the body of `r.gateway`, the constructor of the gateway dynamic
resource, is in a sibling file of the package. The resource belongs to no variant, so its
name, label set and group/version/resource are fixed, and the schema-less rest is a
function of the receiver. -/
structure GatewayBuilder where
  Name : String
  Labels : List (String × String)
  Gvr : GroupVersionResource
  Spec : Reconciler → String

/-- The method the gateway constructor stands for. -/
def GatewayBuilder.build (g : GatewayBuilder) (r : Reconciler) (_ : Unit) : DynamicObject :=
  { Name := g.Name, Labels := g.Labels, Gvr := g.Gvr, Spec := g.Spec r }

/-- Modelled from the spec: the builders `Reconcile` refers to, as the data model describes
them: seven variant builders and the constructor of the gateway dynamic resource. -/
structure Builders where
  serviceAccount : VariantBuilder
  clusterRole : VariantBuilder
  clusterRoleBinding : VariantBuilder
  deployment : VariantBuilder
  service : VariantBuilder
  horizontalPodAutoscaler : VariantBuilder
  podDisruptionBudget : VariantBuilder
  gateway : GatewayBuilder

/-- The method table of a set of builders. -/
def Builders.methods (b : Builders) : Methods where
  serviceAccount := b.serviceAccount.build
  clusterRole := b.clusterRole.build
  clusterRoleBinding := b.clusterRoleBinding.build
  deployment := b.deployment.build
  service := b.service.build
  horizontalPodAutoscaler := b.horizontalPodAutoscaler.build
  podDisruptionBudget := b.podDisruptionBudget.build
  gateway := b.gateway.build

/-! ## Sample instances -/

/-- A sample method table: each builder names its object with the naming helper of its
kind and labels it with `gwLabels`; no builder reads its receiver. -/
def sampleMethods : Methods where
  serviceAccount _ gw :=
    { gvk := ⟨"", "v1", "ServiceAccount"⟩, name := serviceAccountName gw,
      labels := gwLabels gw, spec := "" }
  clusterRole _ gw :=
    { gvk := ⟨"rbac.authorization.k8s.io", "v1", "ClusterRole"⟩, name := clusterRoleName gw,
      labels := gwLabels gw, spec := "" }
  clusterRoleBinding _ gw :=
    { gvk := ⟨"rbac.authorization.k8s.io", "v1", "ClusterRoleBinding"⟩,
      name := clusterRoleBindingName gw, labels := gwLabels gw, spec := "" }
  deployment _ gw :=
    { gvk := ⟨"apps", "v1", "Deployment"⟩, name := gatewayName gw,
      labels := gwLabels gw, spec := "" }
  service _ gw :=
    { gvk := ⟨"", "v1", "Service"⟩, name := gatewayName gw,
      labels := gwLabels gw, spec := "" }
  horizontalPodAutoscaler _ gw :=
    { gvk := ⟨"autoscaling", "v2beta1", "HorizontalPodAutoscaler"⟩, name := hpaName gw,
      labels := gwLabels gw, spec := "" }
  podDisruptionBudget _ gw :=
    { gvk := ⟨"policy", "v1beta1", "PodDisruptionBudget"⟩, name := pdbName gw,
      labels := gwLabels gw, spec := "" }
  gateway _ _ :=
    { Name := defaultGatewayName, Labels := gwLabels ingress,
      Gvr := ⟨"networking.istio.io", "v1alpha3", "gateways"⟩, Spec := "" }

/-- Sample builders: each names its object with the naming helper of its kind and labels
it with `gwLabels`; the deployment's specification reads the disruption-budget flag of
its receiver and the gateway's specification reads the ingress flag. -/
def sampleBuilders : Builders where
  serviceAccount :=
    { gvk := ⟨"", "v1", "ServiceAccount"⟩, name := serviceAccountName, labels := gwLabels,
      spec := fun _ _ => "" }
  clusterRole :=
    { gvk := ⟨"rbac.authorization.k8s.io", "v1", "ClusterRole"⟩, name := clusterRoleName,
      labels := gwLabels, spec := fun _ _ => "" }
  clusterRoleBinding :=
    { gvk := ⟨"rbac.authorization.k8s.io", "v1", "ClusterRoleBinding"⟩,
      name := clusterRoleBindingName, labels := gwLabels, spec := fun _ _ => "" }
  deployment :=
    { gvk := ⟨"apps", "v1", "Deployment"⟩, name := gatewayName, labels := gwLabels,
      spec := fun r gw =>
        if r.Config.Spec.DefaultPodDisruptionBudget.Enabled then gw ++ ":budgeted" else gw }
  service :=
    { gvk := ⟨"", "v1", "Service"⟩, name := gatewayName, labels := gwLabels,
      spec := fun _ _ => "" }
  horizontalPodAutoscaler :=
    { gvk := ⟨"autoscaling", "v2beta1", "HorizontalPodAutoscaler"⟩, name := hpaName,
      labels := gwLabels, spec := fun _ _ => "" }
  podDisruptionBudget :=
    { gvk := ⟨"policy", "v1beta1", "PodDisruptionBudget"⟩, name := pdbName,
      labels := gwLabels, spec := fun _ _ => "" }
  gateway :=
    { Name := defaultGatewayName, Labels := gwLabels ingress,
      Gvr := ⟨"networking.istio.io", "v1alpha3", "gateways"⟩,
      Spec := fun r => if r.Config.Spec.Gateways.K8sIngress.Enabled then "on" else "off" }

/-- A sample receiver with the two feature flags as given. -/
def sampleReconciler (pdb k8sIngress : Bool) : Reconciler :=
  { Config := { Spec :=
      { DefaultPodDisruptionBudget := { Enabled := pdb }
        Gateways :=
          { IngressConfig := { settings := [("replicaCount", "1")] }
            EgressConfig := { settings := [("replicaCount", "2")] }
            K8sIngress := { Enabled := k8sIngress } } } } }

/-- A sample cluster whose store counts the convergence calls made so far and whose
primitives fail with `"denied"` on call number `k` (from zero) and succeed otherwise. -/
def faultyCluster (k : Nat) : Cluster Nat (Option String) where
  reconcile s _ := (s + 1, if s = k then some (Error.base "denied") else none)
  reconcileDynamic s _ _ := (s + 1, if s = k then some (Error.base "denied") else none)

/-- The identity under which the sample store keeps an item: kind (or resource) and name. -/
def Item.key {δ : Type} : Item δ → String × String
  | Item.typed o => (o.gvk.Kind, o.name)
  | Item.dynamic d _ => (d.Gvr.Resource, d.Name)

/-- The sample store's convergence of one item: leave the store as it is when the item
is in it, else drop whatever is kept under the item's identity and put the item. -/
def putItem {δ : Type} [DecidableEq δ] (s : List (Item δ)) (it : Item δ) :
    List (Item δ) × Option Error :=
  if it ∈ s then (s, none) else (it :: s.filter (fun x => decide (x.key ≠ it.key)), none)

/-- A sample cluster that keeps, per identity, the item last converged. -/
def keyedCluster : Cluster (List (Item (Option String))) (Option String) where
  reconcile s o := putItem s (Item.typed o)
  reconcileDynamic s d desired := putItem s (Item.dynamic d desired)

section Contract

variable {σ δ : Type}

/-! ## The run as one fail-fast routine -/

theorem typedPass_eq_reconcileAll (cl : Cluster σ δ) (l : List Resource) (s : σ) :
    typedPass cl l s = reconcileAll cl (l.map (fun res => Item.typed (res ()))) s := by
  induction l generalizing s with
  | nil => rfl
  | cons res rest ih =>
    simp only [typedPass, List.map_cons, reconcileAll, Cluster.apply]
    rcases h : cl.reconcile s (res ()) with ⟨s', _ | e⟩
    · simp only [ih, Item.events, List.cons_append, List.nil_append]
    · simp only [Item.events, Item.wrap]

theorem dynamicPass_eq_reconcileAll (cl : Cluster σ δ)
    (l : List (DynamicResourceWithDesiredState δ)) (s : σ) :
    dynamicPass cl l s =
      reconcileAll cl (l.map (fun dr => Item.dynamic (dr.DynamicResource ()) dr.DesiredState)) s := by
  induction l generalizing s with
  | nil => rfl
  | cons dr rest ih =>
    simp only [dynamicPass, List.map_cons, reconcileAll, Cluster.apply]
    rcases h : cl.reconcileDynamic s (dr.DynamicResource ()) dr.DesiredState with ⟨s', _ | e⟩
    · simp only [ih, Item.events, List.cons_append, List.nil_append]
    · simp only [Item.events, Item.wrap]

theorem storeAfter_append (cl : Cluster σ δ) (s : σ) (a b : List (Item δ)) :
    storeAfter cl s (a ++ b) = storeAfter cl (storeAfter cl s a) b := by
  simp [storeAfter, List.foldl_append]

theorem storeAfter_cons (cl : Cluster σ δ) (s : σ) (it : Item δ) (l : List (Item δ)) :
    storeAfter cl s (it :: l) = storeAfter cl (cl.apply s it).1 l := rfl

theorem allSucceed_append (cl : Cluster σ δ) (s : σ) (a b : List (Item δ)) :
    AllSucceed cl s (a ++ b) ↔ AllSucceed cl s a ∧ AllSucceed cl (storeAfter cl s a) b := by
  induction a generalizing s with
  | nil => simp [AllSucceed, storeAfter]
  | cons it rest ih =>
    simp only [List.cons_append, AllSucceed, List.append_eq, ih, storeAfter_cons, and_assoc]

theorem reconcileAll_of_allSucceed (cl : Cluster σ δ) (l : List (Item δ)) (s : σ)
    (h : AllSucceed cl s l) :
    reconcileAll cl l s =
      { store := storeAfter cl s l, trace := l.flatMap (fun it => it.events none), err := none } := by
  induction l generalizing s with
  | nil => rfl
  | cons it rest ih =>
    obtain ⟨h1, h2⟩ := h
    rcases hc : cl.apply s it with ⟨s', oe⟩
    rw [hc] at h1 h2
    simp only at h1 h2
    subst h1
    simp only [reconcileAll, hc, ih s' h2, storeAfter, List.foldl_cons, List.flatMap_cons]

theorem reconcileAll_fail (cl : Cluster σ δ) (pre : List (Item δ)) (it : Item δ)
    (post : List (Item δ)) (s : σ) (e0 : Error) (hpre : AllSucceed cl s pre)
    (hit : (cl.apply (storeAfter cl s pre) it).2 = some e0) :
    reconcileAll cl (pre ++ it :: post) s =
      { store := (cl.apply (storeAfter cl s pre) it).1
        trace := pre.flatMap (fun x => x.events none) ++ it.events (some e0)
        err := some (it.wrap e0) } := by
  induction pre generalizing s with
  | nil =>
    simp only [storeAfter, List.foldl_nil] at hit
    rcases hc : cl.apply s it with ⟨s', oe⟩
    rw [hc] at hit
    simp only at hit
    subst hit
    simp [reconcileAll, hc, storeAfter]
  | cons x rest ih =>
    obtain ⟨h1, h2⟩ := hpre
    rcases hc : cl.apply s x with ⟨s', oe⟩
    rw [hc] at h1 h2
    simp only at h1 h2
    subst h1
    rw [storeAfter_cons, hc] at hit
    simp only at hit
    simp only [List.cons_append, reconcileAll, hc, List.append_eq, ih s' h2 hit,
      storeAfter_cons, List.flatMap_cons, List.append_assoc]

/-- Every run of the routine either succeeds on all items or stops at a first failing one. -/
theorem reconcileAll_cases (cl : Cluster σ δ) (l : List (Item δ)) (s : σ) :
    AllSucceed cl s l ∨
      ∃ pre it post e0, l = pre ++ it :: post ∧ AllSucceed cl s pre ∧
        (cl.apply (storeAfter cl s pre) it).2 = some e0 := by
  induction l generalizing s with
  | nil => exact Or.inl trivial
  | cons x rest ih =>
    rcases hc : (cl.apply s x).2 with _ | e
    · rcases ih (cl.apply s x).1 with h | ⟨pre, it, post, e0, hl, hpre, hit⟩
      · exact Or.inl ⟨hc, h⟩
      · refine Or.inr ⟨x :: pre, it, post, e0, ?_, ⟨hc, hpre⟩, ?_⟩
        · simp [hl]
        · simpa [storeAfter_cons] using hit
    · exact Or.inr ⟨[], x, rest, e, rfl, trivial, by simpa [storeAfter] using hc⟩

theorem reconcileAll_err_none (cl : Cluster σ δ) (l : List (Item δ)) (s : σ)
    (h : (reconcileAll cl l s).err = none) : AllSucceed cl s l := by
  rcases reconcileAll_cases cl l s with hs | ⟨pre, it, post, e0, hl, hpre, hit⟩
  · exact hs
  · rw [hl, reconcileAll_fail cl pre it post s e0 hpre hit] at h
    cases h

theorem Reconcile_eq_reconcileAll [Inhabited δ] (m : Methods) (cl : Cluster σ δ)
    (r : Reconciler) (s : σ) :
    Reconcile m cl r s =
      { store := (reconcileAll cl (items m r) s).store
        trace := Event.info componentName "Reconciling" :: (reconcileAll cl (items m r) s).trace ++
          (match (reconcileAll cl (items m r) s).err with
            | none => [Event.info componentName "Reconciled"]
            | some _ => [])
        err := (reconcileAll cl (items m r) s).err } := by
  have key : ∀ (a b : List (Item δ)),
      reconcileAll cl (a ++ b) s =
        match (reconcileAll cl a s).err with
        | some _ => reconcileAll cl a s
        | none =>
          { store := (reconcileAll cl b (reconcileAll cl a s).store).store
            trace := (reconcileAll cl a s).trace ++ (reconcileAll cl b (reconcileAll cl a s).store).trace
            err := (reconcileAll cl b (reconcileAll cl a s).store).err } := by
    intro a b
    rcases reconcileAll_cases cl a s with h | ⟨pre, it, post, e0, hl, hpre, hit⟩
    · rw [reconcileAll_of_allSucceed cl a s h]
      simp only
      rcases reconcileAll_cases cl b (storeAfter cl s a) with hb | ⟨pre, it, post, e0, hl, hpre, hit⟩
      · rw [reconcileAll_of_allSucceed cl b _ hb,
          reconcileAll_of_allSucceed cl (a ++ b) s ((allSucceed_append cl s a b).2 ⟨h, hb⟩)]
        simp [storeAfter_append]
      · subst hl
        rw [reconcileAll_fail cl pre it post _ e0 hpre hit]
        have := reconcileAll_fail cl (a ++ pre) it post s e0
          ((allSucceed_append cl s a pre).2 ⟨h, hpre⟩) (by rw [storeAfter_append]; exact hit)
        rw [List.append_assoc] at this
        rw [this]
        simp [storeAfter_append]
    · subst hl
      rw [List.append_assoc, List.cons_append, reconcileAll_fail cl pre it (post ++ b) s e0 hpre hit,
        reconcileAll_fail cl pre it post s e0 hpre hit]
  unfold Reconcile
  simp only [typedPass_eq_reconcileAll, dynamicPass_eq_reconcileAll]
  have hi : (items m r : List (Item δ)) = (typedResources m r).map (fun res => Item.typed (res ())) ++
      (drs m r).map (fun dr => Item.dynamic (dr.DynamicResource ()) dr.DesiredState) := by
    simp [items, typedObjects]
  rw [hi, key]
  generalize reconcileAll cl ((typedResources m r).map (fun res => Item.typed (res ()))) s = A
  rcases A with ⟨sA, tA, _ | eA⟩
  · simp only
    generalize reconcileAll cl
      ((drs m r).map (fun dr => Item.dynamic (dr.DynamicResource ()) dr.DesiredState)) sA = B
    rcases B with ⟨sB, tB, _ | eB⟩ <;> simp
  · simp

/-- A run either converges every item of its work list, or stops at the first item the
primitive fails on. -/
theorem Reconcile_shape [Inhabited δ] (m : Methods) (cl : Cluster σ δ) (r : Reconciler)
    (s : σ) :
    (AllSucceed cl s (items m r) ∧
      Reconcile m cl r s =
        { store := storeAfter cl s (items m r)
          trace := Event.info componentName "Reconciling" ::
            ((items m r).flatMap (fun it => it.events none) ++
              [Event.info componentName "Reconciled"])
          err := none }) ∨
    (∃ pre it post e0, (items m r : List (Item δ)) = pre ++ it :: post ∧
      AllSucceed cl s pre ∧ (cl.apply (storeAfter cl s pre) it).2 = some e0 ∧
      Reconcile m cl r s =
        { store := (cl.apply (storeAfter cl s pre) it).1
          trace := Event.info componentName "Reconciling" ::
            (pre.flatMap (fun x => x.events none) ++ it.events (some e0))
          err := some (it.wrap e0) }) := by
  rcases reconcileAll_cases cl (items m r) s with hs | ⟨pre, it, post, e0, hl, hpre, hit⟩
  · left
    refine ⟨hs, ?_⟩
    rw [Reconcile_eq_reconcileAll, reconcileAll_of_allSucceed cl _ s hs]
    simp
  · right
    refine ⟨pre, it, post, e0, hl, hpre, hit, ?_⟩
    rw [Reconcile_eq_reconcileAll, hl, reconcileAll_fail cl pre it post s e0 hpre hit]
    simp

/-! ## Reading a trace -/

theorem calls_events (it : Item δ) (oe : Option Error) :
    calls (it.events oe) = [(it, oe)] := by
  cases it <;> rfl

theorem calls_append (a b : List (Event δ)) : calls (a ++ b) = calls a ++ calls b := by
  simp [calls, List.filterMap_append]

theorem calls_info_cons (c msg : String) (t : List (Event δ)) :
    calls (Event.info c msg :: t) = calls t := by
  simp [calls, List.filterMap_cons, Event.call?]

theorem calls_flatMap_events (l : List (Item δ)) :
    calls (l.flatMap (fun it => it.events none)) = l.map (fun it => (it, none)) := by
  induction l with
  | nil => rfl
  | cons x rest ih =>
    rw [List.flatMap_cons, calls_append, calls_events, ih]
    rfl

theorem calls_of_err_none [Inhabited δ] (m : Methods) (cl : Cluster σ δ) (r : Reconciler)
    (s : σ) (h : (Reconcile m cl r s).err = none) :
    calls (Reconcile m cl r s).trace = (items m r).map (fun it => (it, none)) := by
  rcases Reconcile_shape m cl r s with ⟨_, hrun⟩ | ⟨pre, it, post, e0, _, _, _, hrun⟩
  · rw [hrun]
    simp only [calls_info_cons, calls_append, calls_flatMap_events]
    simp [calls, Event.call?]
  · rw [hrun] at h
    cases h

theorem getLast?_events (t : List (Event δ)) (it : Item δ) (oe : Option Error) :
    (t ++ it.events oe).getLast? = (it.events oe).getLast? := by
  cases it <;> simp [Item.events, List.getLast?_append]

theorem flatMap_events_typed (l : List Object) (oe : Option Error) :
    (l.map Item.typed).flatMap (fun x => (x.events oe : List (Event δ))) =
      l.flatMap (fun x => [Event.build x, Event.converge x oe]) := by
  induction l with
  | nil => rfl
  | cons x rest ih =>
    rw [List.map_cons, List.flatMap_cons, List.flatMap_cons, ih]
    rfl

theorem builtObjects_typed (l : List Object) (f : Object → Option Error) :
    builtObjects (l.flatMap (fun x => [Event.build x, Event.converge x (f x)]) : List (Event δ)) = l := by
  induction l with
  | nil => rfl
  | cons x rest ih =>
    simp only [builtObjects] at ih
    simp [builtObjects, List.filterMap_cons, ih]

theorem convergedObjects_typed (l : List Object) (f : Object → Option Error) :
    convergedObjects (l.flatMap (fun x => [Event.build x, Event.converge x (f x)]) : List (Event δ)) = l := by
  induction l with
  | nil => rfl
  | cons x rest ih =>
    simp only [convergedObjects] at ih
    simp [convergedObjects, List.filterMap_cons, ih]

theorem convergedObjects_eq_calls (t : List (Event δ)) :
    convergedObjects t = (calls t).filterMap (fun c => c.1.object?) := by
  induction t with
  | nil => rfl
  | cons e rest ih =>
    simp only [convergedObjects, calls] at ih
    cases e <;>
      simp [convergedObjects, calls, List.filterMap_cons, Event.call?, Item.object?, ih]

theorem filterMap_object_items [Inhabited δ] (m : Methods) (r : Reconciler) :
    (items m r : List (Item δ)).filterMap Item.object? = typedObjects m r := by
  simp only [items, List.filterMap_append, List.filterMap_map]
  have h1 : ∀ l : List Object, l.filterMap (Item.object? ∘ (Item.typed : Object → Item δ)) = l := by
    intro l
    induction l with
    | nil => rfl
    | cons x rest ih => simp [List.filterMap_cons, Item.object?, ih]
  have h2 : ∀ l : List (DynamicResourceWithDesiredState δ),
      l.filterMap (Item.object? ∘
        (fun dr => Item.dynamic (dr.DynamicResource ()) dr.DesiredState)) = [] := by
    intro l
    induction l with
    | nil => rfl
    | cons x rest ih => simp [List.filterMap_cons, Item.object?, ih]
  rw [h1, h2, List.append_nil]

theorem typedPass_trace_isTyped (cl : Cluster σ δ) (l : List Resource) (s : σ) :
    ∀ e ∈ (typedPass cl l s).trace, e.isTyped = true := by
  induction l generalizing s with
  | nil => intro e he; simp [typedPass] at he
  | cons res rest ih =>
    intro e he
    simp only [typedPass] at he
    rcases h : cl.reconcile s (res ()) with ⟨s', _ | err⟩
    · rw [h] at he
      simp only [List.mem_cons] at he
      rcases he with rfl | rfl | he
      · rfl
      · rfl
      · exact ih s' e he
    · rw [h] at he
      simp only [List.mem_cons, List.mem_singleton, List.not_mem_nil, or_false] at he
      rcases he with rfl | rfl <;> rfl

theorem dynamicPass_trace_isDynamic (cl : Cluster σ δ)
    (l : List (DynamicResourceWithDesiredState δ)) (s : σ) :
    ∀ e ∈ (dynamicPass cl l s).trace, e.isDynamic = true := by
  induction l generalizing s with
  | nil => intro e he; simp [dynamicPass] at he
  | cons dr rest ih =>
    intro e he
    simp only [dynamicPass] at he
    rcases h : cl.reconcileDynamic s (dr.DynamicResource ()) dr.DesiredState with ⟨s', _ | err⟩
    · rw [h] at he
      simp only [List.mem_cons] at he
      rcases he with rfl | rfl | he
      · rfl
      · rfl
      · exact ih s' e he
    · rw [h] at he
      simp only [List.mem_cons, List.mem_singleton, List.not_mem_nil, or_false] at he
      rcases he with rfl | rfl <;> rfl

theorem typedPass_trace_of_err_none (cl : Cluster σ δ) (l : List Resource) (s : σ)
    (h : (typedPass cl l s).err = none) :
    (typedPass cl l s).trace =
      (l.map (fun res => res ())).flatMap (fun o => [Event.build o, Event.converge o none]) := by
  rw [typedPass_eq_reconcileAll] at h ⊢
  rw [reconcileAll_of_allSucceed cl _ s (reconcileAll_err_none cl _ s h)]
  have := flatMap_events_typed (δ := δ) (l.map (fun res => res ())) none
  simpa [List.map_map] using this

theorem isTyped_of_isDynamic (e : Event δ) (h : e.isDynamic = true) : e.isTyped = false := by
  cases e <;> simp_all [Event.isDynamic, Event.isTyped]

/-! ## Fail-fast typed pass -/

theorem items_eq_of_typedObjects [Inhabited δ] (m : Methods) (r : Reconciler)
    (pre : List Object) (o : Object) (post : List Object)
    (h : typedObjects m r = pre ++ o :: post) :
    (items m r : List (Item δ)) = pre.map Item.typed ++ Item.typed o ::
      (post.map Item.typed ++
        (drs m r).map (fun dr => Item.dynamic (dr.DynamicResource ()) dr.DesiredState)) := by
  simp [items, h]

/-- C1: the typed pass is fail-fast. If the primitive succeeds on the objects of the first
closures of the typed list (`pre`) and fails on the object `o` of the next one, then
`Reconcile` returns a non-nil error and the calls of the run are exactly: the log line,
build and converge for each closure up to the failing one, in order. The closures after
the failing one (`post`) are neither invoked nor converged, and no dynamic call is made. -/
theorem typed_pass_fail_fast [Inhabited δ] (m : Methods) (cl : Cluster σ δ) (r : Reconciler)
    (s : σ) (pre : List Object) (o : Object) (post : List Object) (e0 : Error)
    (hlist : typedObjects m r = pre ++ o :: post)
    (hpre : AllSucceed cl s (pre.map Item.typed))
    (hfail : (cl.reconcile (storeAfter cl s (pre.map Item.typed)) o).2 = some e0) :
    (Reconcile m cl r s).err ≠ none ∧
    (Reconcile m cl r s).trace =
      Event.info componentName "Reconciling" ::
        (pre.flatMap (fun x => [Event.build x, Event.converge x none]) ++
          [Event.build o, Event.converge o (some e0)]) ∧
    builtObjects (Reconcile m cl r s).trace = pre ++ [o] ∧
    convergedObjects (Reconcile m cl r s).trace = pre ++ [o] := by
  have hrun := reconcileAll_fail cl (pre.map Item.typed) (Item.typed o)
    (post.map Item.typed ++
      (drs m r).map (fun dr => Item.dynamic (dr.DynamicResource ()) dr.DesiredState)) s e0 hpre hfail
  rw [← items_eq_of_typedObjects m r pre o post hlist] at hrun
  have htrace : (Reconcile m cl r s).trace =
      Event.info componentName "Reconciling" ::
        (pre.flatMap (fun x => [Event.build x, Event.converge x none]) ++
          [Event.build o, Event.converge o (some e0)]) := by
    rw [Reconcile_eq_reconcileAll, hrun]
    simp only [flatMap_events_typed]
    simp [Item.events]
  refine ⟨?_, htrace, ?_, ?_⟩
  · rw [Reconcile_eq_reconcileAll, hrun]
    simp
  · rw [htrace]
    have := builtObjects_typed (δ := δ) pre (fun _ => none)
    simp only [builtObjects] at this
    simp [builtObjects, List.filterMap_cons, List.filterMap_append, this]
  · rw [htrace]
    have := convergedObjects_typed (δ := δ) pre (fun _ => none)
    simp only [convergedObjects] at this
    simp [convergedObjects, List.filterMap_cons, List.filterMap_append, this]

theorem typed_pass_fail_fast_witness :
    typedObjects sampleMethods (sampleReconciler false true) =
      [sampleMethods.serviceAccount (sampleReconciler false true) "ingressgateway"] ++
        sampleMethods.clusterRole (sampleReconciler false true) "ingressgateway" ::
          (typedObjects sampleMethods (sampleReconciler false true)).drop 2 ∧
    (Reconcile sampleMethods (faultyCluster 1) (sampleReconciler false true) 0).err ≠ none ∧
    ((builtObjects
      (Reconcile sampleMethods (faultyCluster 1) (sampleReconciler false true) 0).trace).map
        (fun o => o.name)) =
      ["istio-ingressgateway-service-account", "istio-ingressgateway-cluster-role"] ∧
    ((convergedObjects
      (Reconcile sampleMethods (faultyCluster 1) (sampleReconciler false true) 0).trace).map
        (fun o => o.name)) =
      ["istio-ingressgateway-service-account", "istio-ingressgateway-cluster-role"] :=
  have h := typed_pass_fail_fast sampleMethods (faultyCluster 1) (sampleReconciler false true) 0
    [sampleMethods.serviceAccount (sampleReconciler false true) "ingressgateway"]
    (sampleMethods.clusterRole (sampleReconciler false true) "ingressgateway")
    ((typedObjects sampleMethods (sampleReconciler false true)).drop 2)
    (Error.base "denied") (by decide) ⟨by decide, trivial⟩ (by decide)
  ⟨by decide, h.1, by rw [h.2.2.1]; decide, by rw [h.2.2.2]; decide⟩

/-! ## Error context -/

/-- C2 (counterexample): two runs of the sample reconciler, one failing on the ingress
service account and one on the egress service account, return the same error; that error
holds the primitive's error, the message and the kind, and says nothing of which of the
two differently named resources failed. -/
theorem Reconcile_error_omits_name :
    (Reconcile sampleMethods (faultyCluster 0) (sampleReconciler false false) 0).err =
      (Reconcile sampleMethods (faultyCluster 6) (sampleReconciler false false) 0).err ∧
    (Reconcile sampleMethods (faultyCluster 0) (sampleReconciler false false) 0).err =
      some (Error.wrapWith (Error.base "denied") "failed to reconcile resource"
        [("resource", ContextValue.gvk ⟨"", "v1", "ServiceAccount"⟩)]) ∧
    ((calls (Reconcile sampleMethods (faultyCluster 0)
        (sampleReconciler false false) 0).trace).getLast?.map (fun c => (c.1.name, c.2))) =
      some ("istio-ingressgateway-service-account", some (Error.base "denied")) ∧
    ((calls (Reconcile sampleMethods (faultyCluster 6)
        (sampleReconciler false false) 0).trace).getLast?.map (fun c => (c.1.name, c.2))) =
      some ("istio-egressgateway-service-account", some (Error.base "denied")) := by
  decide

/-- C2 (amended): when `Reconcile` returns an error, the last call of the run is the
failing convergence call, and the returned error is the primitive's error wrapped with a
message and the single context pair `"resource"`: the group/version/kind of the failing
typed object, or the group/version/resource of the failing dynamic handle. `Reconcile`
attaches no resource name. -/
theorem Reconcile_error_context [Inhabited δ] (m : Methods) (cl : Cluster σ δ)
    (r : Reconciler) (s : σ) (e : Error) (h : (Reconcile m cl r s).err = some e) :
    (∃ o e0, (Reconcile m cl r s).trace.getLast? = some (Event.converge o (some e0)) ∧
      e = Error.wrapWith e0 "failed to reconcile resource"
        [("resource", ContextValue.gvk o.gvk)]) ∨
    (∃ d desired e0,
      (Reconcile m cl r s).trace.getLast? = some (Event.convergeDynamic d desired (some e0)) ∧
      e = Error.wrapWith e0 "failed to reconcile dynamic resource"
        [("resource", ContextValue.gvr d.Gvr)]) := by
  rcases Reconcile_shape m cl r s with ⟨_, hrun⟩ | ⟨pre, it, post, e0, _, _, _, hrun⟩
  · rw [hrun] at h
    cases h
  · rw [hrun] at h ⊢
    simp only [Option.some.injEq] at h
    subst h
    cases it with
    | typed o =>
      left
      refine ⟨o, e0, ?_, rfl⟩
      rw [← List.cons_append, getLast?_events]
      rfl
    | dynamic d ds =>
      right
      refine ⟨d, ds, e0, ?_, rfl⟩
      rw [← List.cons_append, getLast?_events]
      rfl

theorem Reconcile_error_context_witness :
    (Reconcile sampleMethods (faultyCluster 12) (sampleReconciler false true) 0).err =
      some (Error.wrapWith (Error.base "denied") "failed to reconcile dynamic resource"
        [("resource", ContextValue.gvr ⟨"networking.istio.io", "v1alpha3", "gateways"⟩)]) ∧
    ((∃ o e0,
        (Reconcile sampleMethods (faultyCluster 12) (sampleReconciler false true) 0).trace.getLast?
          = some (Event.converge o (some e0)) ∧
        Error.wrapWith (Error.base "denied") "failed to reconcile dynamic resource"
            [("resource", ContextValue.gvr ⟨"networking.istio.io", "v1alpha3", "gateways"⟩)] =
          Error.wrapWith e0 "failed to reconcile resource"
            [("resource", ContextValue.gvk o.gvk)]) ∨
      (∃ d desired e0,
        (Reconcile sampleMethods (faultyCluster 12) (sampleReconciler false true) 0).trace.getLast?
          = some (Event.convergeDynamic d desired (some e0)) ∧
        Error.wrapWith (Error.base "denied") "failed to reconcile dynamic resource"
            [("resource", ContextValue.gvr ⟨"networking.istio.io", "v1alpha3", "gateways"⟩)] =
          Error.wrapWith e0 "failed to reconcile dynamic resource"
            [("resource", ContextValue.gvr d.Gvr)])) :=
  ⟨by decide,
    Reconcile_error_context sampleMethods (faultyCluster 12) (sampleReconciler false true) 0 _
      (by decide)⟩

/-! ## Order of the two passes -/

/-- C3: the dynamic pass runs strictly after a successful typed pass. The calls of a run
are the opening log line, then typed calls only, then dynamic calls only, then log lines
only; if the run makes any dynamic call, the typed calls before it are the build and
successful converge of every closure of the typed list; and if a typed convergence call
fails, the run makes no dynamic call at all (no handle is built, the dynamic primitive is
not invoked). -/
theorem dynamic_pass_after_typed [Inhabited δ] (m : Methods) (cl : Cluster σ δ)
    (r : Reconciler) (s : σ) :
    (∃ tt td tl, (Reconcile m cl r s).trace =
        Event.info componentName "Reconciling" :: (tt ++ td ++ tl) ∧
      (∀ e ∈ tt, e.isTyped = true) ∧ (∀ e ∈ td, e.isDynamic = true) ∧
      (∀ e ∈ tl, e.isInfo = true)) ∧
    ((∃ e ∈ (Reconcile m cl r s).trace, e.isDynamic = true) →
      (Reconcile m cl r s).trace.filter Event.isTyped =
        (typedObjects m r).flatMap (fun o => [Event.build o, Event.converge o none])) ∧
    ((∃ o e0, Event.converge o (some e0) ∈ (Reconcile m cl r s).trace) →
      ∀ e ∈ (Reconcile m cl r s).trace, e.isDynamic = false) := by
  have hT := typedPass_trace_isTyped cl (typedResources m r) s
  have hT0 := typedPass_trace_of_err_none cl (typedResources m r) s
  have hD := dynamicPass_trace_isDynamic cl (drs m r) (typedPass cl (typedResources m r) s).store
  unfold Reconcile
  simp only
  generalize typedPass cl (typedResources m r) s = A at hT hT0 hD
  rcases A with ⟨sA, tA, _ | eA⟩
  · simp only at hT hT0 hD
    have hT0 := hT0 trivial
    generalize dynamicPass cl (drs m r) sA = B at hD
    have hfilter : ∀ tl : List (Event δ), (∀ e ∈ tl, e.isInfo = true) →
        (Event.info componentName "Reconciling" :: (tA ++ B.trace ++ tl)).filter Event.isTyped
          = tA := by
      intro tl htl
      have h1 : tA.filter Event.isTyped = tA := List.filter_eq_self.2 hT
      have h2 : B.trace.filter Event.isTyped = [] :=
        List.filter_eq_nil_iff.2 (fun e he => by simp [isTyped_of_isDynamic e (hD e he)])
      have h3 : tl.filter Event.isTyped = [] :=
        List.filter_eq_nil_iff.2 (fun e he => by
          have := htl e he
          cases e <;> simp_all [Event.isInfo, Event.isTyped])
      simp [List.filter_cons, List.filter_append, h1, h2, h3, Event.isTyped]
    have hnofail : ∀ (tl : List (Event δ)), (∀ e ∈ tl, e.isInfo = true) → ∀ o e0,
        Event.converge o (some e0) ∉
          Event.info componentName "Reconciling" :: (tA ++ B.trace ++ tl) := by
      intro tl htl o e0 hmem
      simp only [List.mem_cons, List.mem_append] at hmem
      rcases hmem with h | (h | h) | h
      · cases h
      · rw [hT0] at h
        simp [List.mem_flatMap] at h
      · have := hD _ h
        simp [Event.isDynamic] at this
      · have := htl _ h
        simp [Event.isInfo] at this
    rcases B with ⟨sB, tB, _ | eB⟩
    · simp only at hD hfilter hnofail ⊢
      have hinfo : ∀ e ∈ [Event.info componentName "Reconciled"], (e : Event δ).isInfo = true := by
        intro e he
        simp only [List.mem_singleton] at he
        subst he
        rfl
      refine ⟨⟨tA, tB, [Event.info componentName "Reconciled"], by simp, hT, hD, hinfo⟩, ?_, ?_⟩
      · intro _
        have := hfilter _ hinfo
        simp only [List.singleton_append, List.append_assoc, List.cons_append, List.nil_append] at this ⊢
        rw [this, hT0]
        simp [typedObjects]
      · rintro ⟨o, e0, hmem⟩
        exact absurd (by simpa using hmem) (hnofail _ hinfo o e0)
    · simp only at hD hfilter hnofail ⊢
      have hinfo : ∀ e ∈ ([] : List (Event δ)), e.isInfo = true := by
        intro e he
        cases he
      refine ⟨⟨tA, tB, [], by simp, hT, hD, hinfo⟩, ?_, ?_⟩
      · intro _
        have := hfilter _ hinfo
        simp only [List.singleton_append, List.append_assoc, List.cons_append, List.nil_append,
          List.append_nil] at this ⊢
        rw [this, hT0]
        simp [typedObjects]
      · rintro ⟨o, e0, hmem⟩
        exact absurd (by simpa using hmem) (hnofail _ hinfo o e0)
  · simp only at hT ⊢
    refine ⟨⟨tA, [], [], by simp, hT, by simp, by simp⟩, ?_, ?_⟩
    · rintro ⟨e, he, hdyn⟩
      simp only [List.singleton_append, List.mem_cons] at he
      rcases he with rfl | he
      · simp [Event.isDynamic] at hdyn
      · have := hT e he
        cases e <;> simp_all [Event.isDynamic, Event.isTyped]
    · intro _ e he
      simp only [List.singleton_append, List.mem_cons] at he
      rcases he with rfl | he
      · rfl
      · have := hT e he
        cases e <;> simp_all [Event.isDynamic, Event.isTyped]

theorem dynamic_pass_after_typed_witness :
    (∀ e ∈ (Reconcile sampleMethods (faultyCluster 1) (sampleReconciler false true) 0).trace,
      e.isDynamic = false) ∧
    ((Reconcile sampleMethods (faultyCluster 99) (sampleReconciler false true) 0).trace.filter
      Event.isTyped).length = 24 :=
  ⟨(dynamic_pass_after_typed sampleMethods (faultyCluster 1) (sampleReconciler false true) 0).2.2
      ⟨sampleMethods.clusterRole (sampleReconciler false true) "ingressgateway",
        Error.base "denied", by decide⟩,
    by
      rw [(dynamic_pass_after_typed sampleMethods (faultyCluster 99)
        (sampleReconciler false true) 0).2.1
          ⟨Event.buildDynamic (sampleMethods.gateway (sampleReconciler false true) ()),
            by decide, rfl⟩]
      decide⟩

/-! ## The expanded typed list -/

/-- C4: the builder list is the six always-on builders followed by `podDisruptionBudget`
when enabled; the typed list has one closure per (variant, builder) pair of
`["ingressgateway", "egressgateway"]` and the builder list, variant-major: the closure at
index `i * len(builders) + j` yields `builders[j](variants[i])`; and in a run that returns
nil the typed convergence primitive is called on exactly the objects of these closures,
once each, in list order. -/
theorem typed_list_variant_major [Inhabited δ] (m : Methods) (r : Reconciler)
    (cl : Cluster σ δ) (s : σ) :
    rsv m r =
      [m.serviceAccount r, m.clusterRole r, m.clusterRoleBinding r, m.deployment r,
        m.service r, m.horizontalPodAutoscaler r] ++
      (if r.Config.Spec.DefaultPodDisruptionBudget.Enabled = true
        then [m.podDisruptionBudget r] else []) ∧
    (typedResources m r).length =
      ["ingressgateway", "egressgateway"].length * (rsv m r).length ∧
    (∀ i j v b, ["ingressgateway", "egressgateway"][i]? = some v → (rsv m r)[j]? = some b →
      ∃ res, (typedResources m r)[i * (rsv m r).length + j]? = some res ∧ res () = b v) ∧
    ((Reconcile m cl r s).err = none →
      convergedObjects (Reconcile m cl r s).trace =
        (typedResources m r).map (fun res => res ())) := by
  refine ⟨?_, ?_, ?_, ?_⟩
  · unfold rsv
    split <;> simp
  · simp [typedResources, ResolveVariations]
    omega
  · intro i j v b hv hb
    have hj : j < (rsv m r).length := (List.getElem?_eq_some_iff.1 hb).1
    match i, hv with
    | 0, hv =>
      simp only [List.getElem?_cons_zero, Option.some.injEq] at hv
      subst hv
      refine ⟨fun _ => b "ingressgateway", ?_, rfl⟩
      simp only [typedResources, ResolveVariations, Nat.zero_mul, Nat.zero_add]
      rw [List.getElem?_append_left (by simpa using hj), List.getElem?_map, hb]
      rfl
    | 1, hv =>
      simp only [List.getElem?_cons_succ, List.getElem?_cons_zero, Option.some.injEq] at hv
      subst hv
      refine ⟨fun _ => b "egressgateway", ?_, rfl⟩
      simp only [typedResources, ResolveVariations, Nat.one_mul]
      rw [List.getElem?_append_right (by simp), List.getElem?_map]
      simp only [List.length_map, Nat.add_sub_cancel_left, hb]
      rfl
    | n + 2, hv => simp at hv
  · intro hnil
    rw [convergedObjects_eq_calls, calls_of_err_none m cl r s hnil, List.filterMap_map]
    exact filterMap_object_items m r

theorem typed_list_variant_major_witness :
    (∃ res, (typedResources sampleMethods (sampleReconciler false false))[
        1 * (rsv sampleMethods (sampleReconciler false false)).length + 3]? = some res ∧
      (res ()).name = "istio-egressgateway") ∧
    (convergedObjects
      (Reconcile sampleMethods (faultyCluster 99) (sampleReconciler false false) 0).trace).map
        (fun o => o.name) =
      ["istio-ingressgateway-service-account", "istio-ingressgateway-cluster-role",
        "istio-ingressgateway-cluster-role-binding", "istio-ingressgateway",
        "istio-ingressgateway", "istio-ingressgateway-autoscaler",
        "istio-egressgateway-service-account", "istio-egressgateway-cluster-role",
        "istio-egressgateway-cluster-role-binding", "istio-egressgateway",
        "istio-egressgateway", "istio-egressgateway-autoscaler"] :=
  have h := typed_list_variant_major sampleMethods (sampleReconciler false false)
    (faultyCluster 99) 0
  ⟨(h.2.2.1 1 3 "egressgateway" (sampleMethods.deployment (sampleReconciler false false))
      rfl rfl).imp (fun _ hres => ⟨hres.1, by rw [hres.2]; decide⟩),
    by rw [h.2.2.2 (by decide)]; decide⟩

/-! ## Feature flags -/

theorem typedObjects_of_enabled (m : Methods) (r : Reconciler)
    (h : r.Config.Spec.DefaultPodDisruptionBudget.Enabled = true) :
    typedObjects m r =
      [m.serviceAccount r ingress, m.clusterRole r ingress, m.clusterRoleBinding r ingress,
        m.deployment r ingress, m.service r ingress, m.horizontalPodAutoscaler r ingress,
        m.podDisruptionBudget r ingress,
        m.serviceAccount r egress, m.clusterRole r egress, m.clusterRoleBinding r egress,
        m.deployment r egress, m.service r egress, m.horizontalPodAutoscaler r egress,
        m.podDisruptionBudget r egress] := by
  simp [typedObjects, typedResources, rsv, ResolveVariations, h]

theorem typedObjects_of_disabled (m : Methods) (r : Reconciler)
    (h : r.Config.Spec.DefaultPodDisruptionBudget.Enabled = false) :
    typedObjects m r =
      [m.serviceAccount r ingress, m.clusterRole r ingress, m.clusterRoleBinding r ingress,
        m.deployment r ingress, m.service r ingress, m.horizontalPodAutoscaler r ingress,
        m.serviceAccount r egress, m.clusterRole r egress, m.clusterRoleBinding r egress,
        m.deployment r egress, m.service r egress, m.horizontalPodAutoscaler r egress] := by
  simp [typedObjects, typedResources, rsv, ResolveVariations, h]

theorem dynamicObjects_eq (m : Methods) (r : Reconciler) :
    dynamicObjects m r =
      if r.Config.Spec.Gateways.K8sIngress.Enabled = true then [m.gateway r ()] else [] := by
  unfold dynamicObjects drs
  split <;> simp_all

theorem convergedHandles_eq_calls (t : List (Event δ)) :
    convergedHandles t = (calls t).filterMap (fun c => c.1.handle?) := by
  induction t with
  | nil => rfl
  | cons e rest ih =>
    simp only [convergedHandles, calls] at ih
    cases e <;>
      simp [convergedHandles, calls, List.filterMap_cons, Event.call?, Item.handle?, ih]

theorem filterMap_handle_items [Inhabited δ] (m : Methods) (r : Reconciler) :
    (items m r : List (Item δ)).filterMap Item.handle? = dynamicObjects m r := by
  have h1 : ∀ l : List Object,
      l.filterMap (Item.handle? ∘ (Item.typed : Object → Item δ)) = [] := by
    intro l
    induction l with
    | nil => rfl
    | cons x rest ih => simp [List.filterMap_cons, Item.handle?, ih]
  simp only [items, List.filterMap_append, List.filterMap_map, h1, List.nil_append]
  rw [dynamicObjects_eq]
  unfold drs
  split <;> simp_all [Item.handle?]

/-- The resources a run that returns nil converges are the typed sequence and the dynamic
sequence of its configuration. -/
theorem processed_of_err_none [Inhabited δ] (m : Methods) (cl : Cluster σ δ) (r : Reconciler)
    (s : σ) (h : (Reconcile m cl r s).err = none) :
    convergedObjects (Reconcile m cl r s).trace = typedObjects m r ∧
    convergedHandles (Reconcile m cl r s).trace = dynamicObjects m r := by
  constructor
  · rw [convergedObjects_eq_calls, calls_of_err_none m cl r s h, List.filterMap_map]
    exact filterMap_object_items m r
  · rw [convergedHandles_eq_calls, calls_of_err_none m cl r s h, List.filterMap_map]
    exact filterMap_handle_items m r

/-- C5: each feature flag gates exactly its own item. For every method table: the builder
list is the six always-on builders followed by `podDisruptionBudget` iff
`Spec.DefaultPodDisruptionBudget.Enabled`; the dynamic list is the gateway resource iff
`Spec.Gateways.K8sIngress.Enabled`, and empty otherwise; with the disruption-budget flag on
the typed sequence holds the two disruption budgets at positions 6 and 13; and the dynamic
sequence with the ingress flag off is the one with the flag on without its single entry.
For builders as the data model describes them (name and labels derived from the variant):
the typed sequence with the disruption-budget flag off is the sequence with the flag on
without the two disruption budgets, every other resource keeping its relative order, name
and labels, and the dynamic sequence keeps its names and labels; and switching the ingress
flag leaves order, names and labels of the typed sequence as they are. These sequences are
what `Reconcile` processes: a run that returns nil converges exactly the typed sequence
and then the dynamic sequence of its configuration. -/
theorem feature_flags_gate [Inhabited δ] (m : Methods) (b : Builders) (r : Reconciler)
    (cl : Cluster σ δ) (s : σ) :
    (∀ r' : Reconciler, (Reconcile m cl r' s).err = none →
      convergedObjects (Reconcile m cl r' s).trace = typedObjects m r' ∧
      convergedHandles (Reconcile m cl r' s).trace = dynamicObjects m r') ∧
    (∀ r' : Reconciler, rsv m r' =
      [m.serviceAccount r', m.clusterRole r', m.clusterRoleBinding r', m.deployment r',
        m.service r', m.horizontalPodAutoscaler r'] ++
      (if r'.Config.Spec.DefaultPodDisruptionBudget.Enabled = true
        then [m.podDisruptionBudget r'] else [])) ∧
    (∀ r' : Reconciler, dynamicObjects m r' =
      if r'.Config.Spec.Gateways.K8sIngress.Enabled = true then [m.gateway r' ()] else []) ∧
    ((typedObjects m (withPodDisruptionBudget true r))[6]? =
        some (m.podDisruptionBudget (withPodDisruptionBudget true r) "ingressgateway") ∧
      (typedObjects m (withPodDisruptionBudget true r))[13]? =
        some (m.podDisruptionBudget (withPodDisruptionBudget true r) "egressgateway") ∧
      (typedObjects m (withPodDisruptionBudget true r)).length = 14 ∧
      (typedObjects m (withPodDisruptionBudget false r)).length = 12 ∧
      (typedObjects b.methods (withPodDisruptionBudget false r)).map Object.identity =
        (((typedObjects b.methods (withPodDisruptionBudget true r)).eraseIdx 13).eraseIdx 6).map
          Object.identity ∧
      (dynamicObjects b.methods (withPodDisruptionBudget false r)).map DynamicObject.identity =
        (dynamicObjects b.methods (withPodDisruptionBudget true r)).map
          DynamicObject.identity) ∧
    (dynamicObjects m (withK8sIngress true r) = [m.gateway (withK8sIngress true r) ()] ∧
      dynamicObjects m (withK8sIngress false r) =
        (dynamicObjects m (withK8sIngress true r)).eraseIdx 0 ∧
      (typedObjects b.methods (withK8sIngress false r)).map Object.identity =
        (typedObjects b.methods (withK8sIngress true r)).map Object.identity) := by
  have hon : (withPodDisruptionBudget true r).Config.Spec.DefaultPodDisruptionBudget.Enabled
      = true := rfl
  have hoff : (withPodDisruptionBudget false r).Config.Spec.DefaultPodDisruptionBudget.Enabled
      = false := rfl
  have hsame : ∀ p : Bool, (withPodDisruptionBudget p r).Config.Spec.Gateways.K8sIngress.Enabled
      = r.Config.Spec.Gateways.K8sIngress.Enabled := fun _ => rfl
  have hkon : (withK8sIngress true r).Config.Spec.Gateways.K8sIngress.Enabled = true := rfl
  have hkoff : (withK8sIngress false r).Config.Spec.Gateways.K8sIngress.Enabled = false := rfl
  have hksame : ∀ k : Bool,
      (withK8sIngress k r).Config.Spec.DefaultPodDisruptionBudget.Enabled =
        r.Config.Spec.DefaultPodDisruptionBudget.Enabled := fun _ => rfl
  refine ⟨fun r' h => processed_of_err_none m cl r' s h, ?_, dynamicObjects_eq m,
    ⟨?_, ?_, ?_, ?_, ?_, ?_⟩, ?_, ?_, ?_⟩
  · intro r'
    unfold rsv
    split <;> simp
  · rw [typedObjects_of_enabled m _ hon]
    rfl
  · rw [typedObjects_of_enabled m _ hon]
    rfl
  · rw [typedObjects_of_enabled m _ hon]
    rfl
  · rw [typedObjects_of_disabled m _ hoff]
    rfl
  · rw [typedObjects_of_enabled _ _ hon, typedObjects_of_disabled _ _ hoff]
    rfl
  · rw [dynamicObjects_eq, dynamicObjects_eq, hsame, hsame]
    split <;> rfl
  · rw [dynamicObjects_eq, hkon]
    rfl
  · rw [dynamicObjects_eq, dynamicObjects_eq, hkon, hkoff]
    rfl
  · rcases hflag : r.Config.Spec.DefaultPodDisruptionBudget.Enabled with _ | _
    · rw [typedObjects_of_disabled _ _ ((hksame false).trans hflag),
        typedObjects_of_disabled _ _ ((hksame true).trans hflag)]
      rfl
    · rw [typedObjects_of_enabled _ _ ((hksame false).trans hflag),
        typedObjects_of_enabled _ _ ((hksame true).trans hflag)]
      rfl

theorem feature_flags_gate_witness :
    (convergedObjects (Reconcile sampleBuilders.methods (faultyCluster 99)
        (withPodDisruptionBudget false (sampleReconciler true true)) 0).trace).map
          Object.identity =
      (((convergedObjects (Reconcile sampleBuilders.methods (faultyCluster 99)
        (withPodDisruptionBudget true (sampleReconciler true true)) 0).trace).eraseIdx
          13).eraseIdx 6).map Object.identity ∧
    (typedObjects sampleBuilders.methods
        (withPodDisruptionBudget false (sampleReconciler true true)))[3]?.map (fun o => o.spec)
      = some "ingressgateway" ∧
    (typedObjects sampleBuilders.methods
        (withPodDisruptionBudget true (sampleReconciler true true)))[3]?.map (fun o => o.spec)
      = some "ingressgateway:budgeted" ∧
    (typedObjects sampleMethods
        (withPodDisruptionBudget true (sampleReconciler true true)))[6]?.map (fun o => o.gvk.Kind)
      = some "PodDisruptionBudget" ∧
    convergedHandles (Reconcile sampleMethods (faultyCluster 99)
      (withK8sIngress false (sampleReconciler true true)) 0).trace = [] :=
  have h := feature_flags_gate sampleMethods sampleBuilders (sampleReconciler true true)
    (faultyCluster 99) 0
  have hb := feature_flags_gate sampleBuilders.methods sampleBuilders
    (sampleReconciler true true) (faultyCluster 99) 0
  ⟨by rw [(hb.1 _ (by decide)).1, (hb.1 _ (by decide)).1]; exact hb.2.2.2.1.2.2.2.2.1,
    by decide, by decide, by rw [h.2.2.2.1.1]; rfl,
    by rw [(h.1 _ (by decide)).2, h.2.2.2.2.2.1, h.2.2.2.2.1]; rfl⟩

/-! ## Result of a run -/

/-- C6: `Reconcile` returns nil exactly when every convergence call it made succeeded; on
nil, the convergence calls are those of the whole work list (typed objects, then dynamic
resources); on an error, the convergence calls are successes on an initial part of the
work list followed by one failing call on the next item, and the returned error is one
`WrapWith` of that call's error. -/
theorem Reconcile_nil_iff_all_succeed [Inhabited δ] (m : Methods) (cl : Cluster σ δ)
    (r : Reconciler) (s : σ) :
    ((Reconcile m cl r s).err = none ↔
      ∀ c ∈ calls (Reconcile m cl r s).trace, c.2 = none) ∧
    ((Reconcile m cl r s).err = none →
      (calls (Reconcile m cl r s).trace).map Prod.fst = items m r) ∧
    (∀ e, (Reconcile m cl r s).err = some e →
      ∃ pre it post e0 msg kv, (items m r : List (Item δ)) = pre ++ it :: post ∧
        calls (Reconcile m cl r s).trace = pre.map (fun x => (x, none)) ++ [(it, some e0)] ∧
        e = Error.wrapWith e0 msg kv) := by
  rcases Reconcile_shape m cl r s with ⟨_, hrun⟩ | ⟨pre, it, post, e0, hl, _, _, hrun⟩
  · have hcalls : calls (Reconcile m cl r s).trace = (items m r).map (fun it => (it, none)) := by
      rw [hrun]
      simp only [calls_info_cons, calls_append, calls_flatMap_events]
      simp [calls, Event.call?]
    refine ⟨⟨fun _ c hc => ?_, fun _ => by rw [hrun]⟩, fun _ => ?_, fun e he => ?_⟩
    · rw [hcalls] at hc
      simp only [List.mem_map] at hc
      obtain ⟨x, _, rfl⟩ := hc
      rfl
    · rw [hcalls]
      simp [List.map_map, Function.comp_def]
    · rw [hrun] at he
      cases he
  · have hcalls : calls (Reconcile m cl r s).trace =
        pre.map (fun x => (x, none)) ++ [(it, some e0)] := by
      rw [hrun]
      simp only [calls_info_cons, calls_append, calls_flatMap_events, calls_events]
    refine ⟨⟨fun h => ?_, fun h => ?_⟩, fun h => ?_, fun e he => ?_⟩
    · rw [hrun] at h
      cases h
    · have := h (it, some e0) (by rw [hcalls]; simp)
      cases this
    · rw [hrun] at h
      cases h
    · rw [hrun] at he
      simp only [Option.some.injEq] at he
      subst he
      cases it with
      | typed o => exact ⟨pre, _, post, e0, _, _, hl, hcalls, rfl⟩
      | dynamic d ds => exact ⟨pre, _, post, e0, _, _, hl, hcalls, rfl⟩

theorem Reconcile_nil_iff_all_succeed_witness :
    (Reconcile sampleMethods (faultyCluster 99) (sampleReconciler true true) 0).err = none ∧
    (∃ pre it post e0 msg kv,
      (items sampleMethods (sampleReconciler false true) : List (Item (Option String))) =
        pre ++ it :: post ∧
      calls (Reconcile sampleMethods (faultyCluster 12) (sampleReconciler false true) 0).trace =
        pre.map (fun x => (x, none)) ++ [(it, some e0)] ∧
      Error.wrapWith (Error.base "denied") "failed to reconcile dynamic resource"
          [("resource", ContextValue.gvr ⟨"networking.istio.io", "v1alpha3", "gateways"⟩)] =
        Error.wrapWith e0 msg kv) :=
  ⟨(Reconcile_nil_iff_all_succeed sampleMethods (faultyCluster 99)
      (sampleReconciler true true) 0).1.2 (by decide),
    (Reconcile_nil_iff_all_succeed sampleMethods (faultyCluster 12)
      (sampleReconciler false true) 0).2.2 _ (by decide)⟩

/-! ## Names and labels -/

/-- Formatting a variant between a fixed head and a fixed tail loses nothing. -/
theorem sprintf_injective (head tail : String) :
    Function.Injective (fun gw : String => head ++ gw ++ tail) := by
  intro a b h
  have hd := congrArg String.data h
  simp only [String.data_append] at hd
  exact String.ext (List.append_cancel_left (List.append_cancel_right hd))

theorem sprintf_head_injective (head : String) :
    Function.Injective (fun gw : String => head ++ gw) := by
  intro a b h
  have hd := congrArg String.data h
  simp only [String.data_append] at hd
  exact String.ext (List.append_cancel_left hd)

/-- C7: each naming helper (`serviceAccountName`, `clusterRoleName`,
`clusterRoleBindingName`, `gatewayName`, `hpaName`, `pdbName`) and `gwLabels` is a
function of the variant string alone and is injective in it: two distinct variants never
get the same name or the same label set from one helper. -/
theorem names_injective :
    Function.Injective serviceAccountName ∧ Function.Injective clusterRoleName ∧
    Function.Injective clusterRoleBindingName ∧ Function.Injective gatewayName ∧
    Function.Injective hpaName ∧ Function.Injective pdbName ∧
    Function.Injective gwLabels := by
  refine ⟨sprintf_injective _ _, sprintf_injective _ _, sprintf_injective _ _,
    sprintf_head_injective _, sprintf_injective _ _, sprintf_head_injective _, ?_⟩
  intro a b h
  simp only [gwLabels, List.cons.injEq, Prod.mk.injEq, true_and, and_true] at h
  exact sprintf_head_injective _ h

/-! ## Desired state of dynamic items -/

/-- C8 (counterexample): with `K8sIngress` enabled the run builds one dynamic item, its
`DesiredState` field is the zero value (here `none`), and that zero value is what the
dynamic convergence primitive receives. -/
theorem desired_state_is_unset :
    ((drs sampleMethods (sampleReconciler false true) :
        List (DynamicResourceWithDesiredState (Option String))).map (fun dr => dr.DesiredState))
      = [none] ∧
    (calls (Reconcile sampleMethods (faultyCluster 99) (sampleReconciler false true) 0).trace
      ).getLast? =
      some (Item.dynamic (sampleMethods.gateway (sampleReconciler false true) ()) none, none) := by
  decide

/-- C8 (amended): every item the run builds for the dynamic pass has its `DesiredState`
field at the zero value of its type, and every dynamic convergence call of the run is made
on the handle an item of that list constructs, with that item's `DesiredState` field (so
with the zero value). -/
theorem desired_state_zero_is_passed [Inhabited δ] (m : Methods) (cl : Cluster σ δ)
    (r : Reconciler) (s : σ) :
    (∀ dr ∈ (drs m r : List (DynamicResourceWithDesiredState δ)), dr.DesiredState = default) ∧
    (∀ d desired err, Event.convergeDynamic d desired err ∈ (Reconcile m cl r s).trace →
      desired = default ∧
      ∃ dr ∈ (drs m r : List (DynamicResourceWithDesiredState δ)),
        d = dr.DynamicResource () ∧ desired = dr.DesiredState) := by
  have hzero : ∀ dr ∈ (drs m r : List (DynamicResourceWithDesiredState δ)),
      dr.DesiredState = default := by
    intro dr hdr
    unfold drs at hdr
    split at hdr
    · simp only [List.nil_append, List.mem_singleton] at hdr
      subst hdr
      rfl
    · cases hdr
  refine ⟨hzero, ?_⟩
  intro d desired err hmem
  have hitem : Item.dynamic d desired ∈ (items m r : List (Item δ)) := by
    have hc : (Item.dynamic d desired, err) ∈ calls (Reconcile m cl r s).trace := by
      simp only [calls, List.mem_filterMap]
      exact ⟨_, hmem, rfl⟩
    rcases Reconcile_shape m cl r s with ⟨_, hrun⟩ | ⟨pre, it, post, e0, hl, _, _, hrun⟩
    · rw [hrun] at hc
      simp only [calls_info_cons, calls_append, calls_flatMap_events] at hc
      simp [calls, Event.call?] at hc
      obtain ⟨a, ha, rfl, _⟩ := hc
      exact ha
    · rw [hrun] at hc
      simp only [calls_info_cons, calls_append, calls_flatMap_events, calls_events] at hc
      rw [hl]
      simp only [List.mem_append, List.mem_map, List.mem_singleton, Prod.mk.injEq] at hc
      rcases hc with ⟨x, hx, hx1, _⟩ | ⟨h1, _⟩
      · subst hx1
        simp [hx]
      · subst h1
        simp
  simp only [items, List.mem_append, List.mem_map] at hitem
  rcases hitem with ⟨o, _, ho⟩ | ⟨dr, hdr, hd⟩
  · cases ho
  · simp only [Item.dynamic.injEq] at hd
    exact ⟨by rw [← hd.2]; exact hzero dr hdr, dr, hdr, hd.1.symm, hd.2.symm⟩

/-! ## Idempotence -/

theorem matches_preserved (cl : Cluster σ δ) {κ : Type} (key : Item δ → κ)
    (Matches : σ → Item δ → Prop)
    (hcreate : ∀ s it, (cl.apply s it).2 = none → Matches (cl.apply s it).1 it)
    (hframe : ∀ s it it', (cl.apply s it').2 = none → key it ≠ key it' → Matches s it →
      Matches (cl.apply s it').1 it)
    (x : Item δ) (l : List (Item δ)) (s : σ) (hx : Matches s x) (hl : AllSucceed cl s l)
    (hid : ∀ it' ∈ l, key x = key it' → x = it') :
    Matches (storeAfter cl s l) x := by
  induction l generalizing s with
  | nil => exact hx
  | cons y rest ih =>
    obtain ⟨h1, h2⟩ := hl
    rw [storeAfter_cons]
    refine ih _ ?_ h2 (fun it' hit' => hid it' (List.mem_cons_of_mem _ hit'))
    by_cases hk : key x = key y
    · have := hid y (List.mem_cons_self _ _) hk
      subst this
      exact hcreate s x h1
    · exact hframe s x y h1 hk hx

theorem matches_after_run (cl : Cluster σ δ) {κ : Type} (key : Item δ → κ)
    (Matches : σ → Item δ → Prop)
    (hcreate : ∀ s it, (cl.apply s it).2 = none → Matches (cl.apply s it).1 it)
    (hframe : ∀ s it it', (cl.apply s it').2 = none → key it ≠ key it' → Matches s it →
      Matches (cl.apply s it').1 it)
    (l : List (Item δ)) (s : σ) (hl : AllSucceed cl s l)
    (hid : ∀ it ∈ l, ∀ it' ∈ l, key it = key it' → it = it') :
    ∀ it ∈ l, Matches (storeAfter cl s l) it := by
  induction l generalizing s with
  | nil => intro it hit; cases hit
  | cons y rest ih =>
    obtain ⟨h1, h2⟩ := hl
    intro it hit
    rw [storeAfter_cons]
    rcases List.mem_cons.1 hit with rfl | hrest
    · exact matches_preserved cl key Matches hcreate hframe it rest _ (hcreate s it h1) h2
        (fun it' hit' => hid it (List.mem_cons_self _ _) it' (List.mem_cons_of_mem _ hit'))
    · exact ih _ h2 (fun a ha b hb =>
        hid a (List.mem_cons_of_mem _ ha) b (List.mem_cons_of_mem _ hb)) it hrest

theorem converged_is_fixed (cl : Cluster σ δ) (Matches : σ → Item δ → Prop)
    (hkeep : ∀ s it, Matches s it → cl.apply s it = (s, none))
    (l : List (Item δ)) (s : σ) (hl : ∀ it ∈ l, Matches s it) :
    AllSucceed cl s l ∧ storeAfter cl s l = s := by
  induction l with
  | nil => exact ⟨trivial, rfl⟩
  | cons y rest ih =>
    have hy := hkeep s y (hl y (List.mem_cons_self _ _))
    have := ih (fun it hit => hl it (List.mem_cons_of_mem _ hit))
    refine ⟨⟨by rw [hy], by rw [hy]; exact this.1⟩, ?_⟩
    rw [storeAfter_cons, hy]
    exact this.2

/-- C9: `Reconcile` is idempotent on a converged store. Let the primitives leave an item
matching after a successful call (`hcreate`: an absent object is created, a divergent one
updated), leave the store untouched and succeed on an item that matches (`hkeep`), and
leave the items of other identities as they are (`hframe`); let the resources of the run
be independent, that is, two items of the work list with one identity are one desired
object (`hident`). If a run from any store returns nil, then a second run with the same
configuration from the store it left returns nil, ends in that same store, and the store
after each of its convergence calls is that same store: it writes nothing. -/
theorem Reconcile_idempotent [Inhabited δ] (m : Methods) (cl : Cluster σ δ) (r : Reconciler)
    (s0 : σ) {κ : Type} (key : Item δ → κ) (Matches : σ → Item δ → Prop)
    (hcreate : ∀ s it, (cl.apply s it).2 = none → Matches (cl.apply s it).1 it)
    (hkeep : ∀ s it, Matches s it → cl.apply s it = (s, none))
    (hframe : ∀ s it it', (cl.apply s it').2 = none → key it ≠ key it' → Matches s it →
      Matches (cl.apply s it').1 it)
    (hident : ∀ it ∈ (items m r : List (Item δ)), ∀ it' ∈ (items m r : List (Item δ)),
      key it = key it' → it = it')
    (hfirst : (Reconcile m cl r s0).err = none) :
    (Reconcile m cl r (Reconcile m cl r s0).store).err = none ∧
    (Reconcile m cl r (Reconcile m cl r s0).store).store = (Reconcile m cl r s0).store ∧
    (∀ n, storeAfter cl (Reconcile m cl r s0).store ((items m r).take n) =
      (Reconcile m cl r s0).store) ∧
    (∀ c ∈ calls (Reconcile m cl r (Reconcile m cl r s0).store).trace,
      cl.apply (Reconcile m cl r s0).store c.1 = ((Reconcile m cl r s0).store, none)) := by
  have h0 : AllSucceed cl s0 (items m r) ∧
      (Reconcile m cl r s0).store = storeAfter cl s0 (items m r) := by
    rcases Reconcile_shape m cl r s0 with ⟨hs, hrun⟩ | ⟨pre, it, post, e0, _, _, _, hrun⟩
    · exact ⟨hs, by rw [hrun]⟩
    · rw [hrun] at hfirst
      cases hfirst
  have hmatch : ∀ it ∈ (items m r : List (Item δ)), Matches (Reconcile m cl r s0).store it := by
    rw [h0.2]
    exact matches_after_run cl key Matches hcreate hframe _ s0 h0.1 hident
  have hfix := converged_is_fixed cl Matches hkeep (items m r) _ hmatch
  have hrun2 : Reconcile m cl r (Reconcile m cl r s0).store =
      { store := (Reconcile m cl r s0).store
        trace := Event.info componentName "Reconciling" ::
          ((items m r).flatMap (fun it => it.events none) ++
            [Event.info componentName "Reconciled"])
        err := none } := by
    rw [Reconcile_eq_reconcileAll m cl r (Reconcile m cl r s0).store,
      reconcileAll_of_allSucceed cl _ _ hfix.1, hfix.2]
    simp
  refine ⟨by rw [hrun2], by rw [hrun2], ?_, ?_⟩
  · intro n
    exact (converged_is_fixed cl Matches hkeep ((items m r).take n) _
      (fun it hit => hmatch it (List.mem_of_mem_take hit))).2
  · intro c hc
    rw [hrun2] at hc
    simp only [calls_info_cons, calls_append, calls_flatMap_events] at hc
    simp only [calls, Event.call?, List.filterMap_cons, List.filterMap_nil, List.append_nil,
      List.mem_map] at hc
    obtain ⟨it, hit, rfl⟩ := hc
    exact hkeep _ it (hmatch it hit)

theorem keyedCluster_apply (s : List (Item (Option String))) (it : Item (Option String)) :
    keyedCluster.apply s it = putItem s it := by
  cases it <;> rfl

theorem putItem_mem (s : List (Item (Option String))) (it : Item (Option String)) :
    it ∈ (putItem s it).1 := by
  unfold putItem
  split
  · assumption
  · exact List.mem_cons_self _ _

theorem putItem_of_mem (s : List (Item (Option String))) (it : Item (Option String))
    (h : it ∈ s) : putItem s it = (s, none) := by
  simp [putItem, h]

theorem putItem_frame (s : List (Item (Option String))) (it it' : Item (Option String))
    (hk : it.key ≠ it'.key) (h : it ∈ s) : it ∈ (putItem s it').1 := by
  unfold putItem
  split
  · exact h
  · exact List.mem_cons_of_mem _ (List.mem_filter.2 ⟨h, by simpa using hk⟩)

theorem Reconcile_idempotent_witness :
    (Reconcile sampleMethods keyedCluster (sampleReconciler true true) []).err = none ∧
    (Reconcile sampleMethods keyedCluster (sampleReconciler true true) []).store.length = 15 ∧
    (Reconcile sampleMethods keyedCluster (sampleReconciler true true)
      (Reconcile sampleMethods keyedCluster (sampleReconciler true true) []).store).err = none ∧
    (Reconcile sampleMethods keyedCluster (sampleReconciler true true)
      (Reconcile sampleMethods keyedCluster (sampleReconciler true true) []).store).store =
      (Reconcile sampleMethods keyedCluster (sampleReconciler true true) []).store :=
  have h := Reconcile_idempotent sampleMethods keyedCluster (sampleReconciler true true) []
    Item.key (fun s it => it ∈ s)
    (fun s it _ => by rw [keyedCluster_apply]; exact putItem_mem s it)
    (fun s it hit => by rw [keyedCluster_apply]; exact putItem_of_mem s it hit)
    (fun s it it' _ hk hit => by rw [keyedCluster_apply]; exact putItem_frame s it it' hk hit)
    (by decide) (by decide)
  ⟨by decide, by decide, h.1, h.2.1⟩

/-! ## Configuration lookup -/

/-- C10: `getGatewayConfig` returns the ingress record for `"ingressgateway"`, the egress
record for `"egressgateway"`, no record for any other string, and in every case leaves
the receiver (and so the configuration) as it was. -/
theorem getGatewayConfig_selects (r : Reconciler) :
    (getGatewayConfig r "ingressgateway").1 = some r.Config.Spec.Gateways.IngressConfig ∧
    (getGatewayConfig r "egressgateway").1 = some r.Config.Spec.Gateways.EgressConfig ∧
    (∀ gw : String, gw ≠ "ingressgateway" → gw ≠ "egressgateway" →
      (getGatewayConfig r gw).1 = none) ∧
    (∀ gw : String, (getGatewayConfig r gw).2 = r) := by
  refine ⟨?_, ?_, ?_, ?_⟩
  · simp [getGatewayConfig, ingress]
  · simp [getGatewayConfig, ingress, egress]
  · intro gw h1 h2
    simp [getGatewayConfig, ingress, egress, h1, h2]
  · intro gw
    unfold getGatewayConfig
    split
    · rfl
    · split <;> rfl

theorem getGatewayConfig_selects_witness :
    "pilot" ≠ "ingressgateway" ∧ "pilot" ≠ "egressgateway" ∧
    (getGatewayConfig (sampleReconciler true true) "pilot").1 = none ∧
    (getGatewayConfig (sampleReconciler true true) "ingressgateway").1 =
      some { settings := [("replicaCount", "1")] } ∧
    (getGatewayConfig (sampleReconciler true true) "egressgateway").1 =
      some { settings := [("replicaCount", "2")] } :=
  ⟨by decide, by decide,
    (getGatewayConfig_selects (sampleReconciler true true)).2.2.1 "pilot" (by decide) (by decide),
    (getGatewayConfig_selects (sampleReconciler true true)).1,
    (getGatewayConfig_selects (sampleReconciler true true)).2.1⟩

end Contract

end Gateways
